import Mathlib

/-!
Verification of the scope/name-resolution analyzer
(`src/parse_tree.h`, `src/scope_analyzer.h`).

The C++ analyzer walks a program AST in three phases, maintaining a chain
of scopes (name-to-type maps with parent pointers) and accumulating a
vector of `ScopeError` kinds; each recorded error also prints a line
`Error: <message>: <name>` to standard output.

The shallow embedding below renders the analyzer as explicit state
passing: `St` holds the local-scope chain (innermost first), the global
scope, the accumulated error kinds, and the printed output lines.
-/

/-- The four error kinds of `enum class ScopeError`. -/
inductive ScopeError : Type where
  | UndeclaredVariable
  | UndefinedFunction
  | VariableRedefined
  | FunctionRedefined
deriving DecidableEq, Repr

/-- A scope's symbol table (`std::unordered_map<std::string, std::string>`),
as an association list from name to declared type.  `Scope.addBinding`
keeps keys unique, so the list order carries no information. -/
abbrev Scope := List (String × String)

/-- Map lookup: the type bound to `n` in this one scope, if any. -/
def Scope.lookupType : Scope → String → Option String
  | [], _ => none
  | (k, v) :: rest, n => if k = n then some v else Scope.lookupType rest n

/-- `Scope::add`: insert `n ↦ t` unless `n` is already bound here;
returns the success flag and the (possibly unchanged) scope. -/
def Scope.addBinding (s : Scope) (n t : String) : Bool × Scope :=
  if (s.lookupType n).isSome then (false, s) else (true, s ++ [(n, t)])

/-- `Scope::in_scope`: is `n` bound in this exact scope? -/
def Scope.inScope (s : Scope) (n : String) : Bool :=
  (s.lookupType n).isSome

/-- `Scope::find` over a parent chain (innermost scope first): the type of
the nearest binding, or `""` when the chain is exhausted. -/
def chainFind : List Scope → String → String
  | [], _ => ""
  | s :: rest, n =>
    match s.lookupType n with
    | some v => v
    | none => chainFind rest n

/-- AST statement/expression nodes (`parse_tree.h`).  Children held by
`std::unique_ptr` (which may be null) are `Option AST`; node vectors are
`List AST`. -/
inductive AST : Type where
  | block : List AST → AST
  | varDecl : String → String → Option AST → AST
  | call : String → List AST → AST
  | nameRef : String → AST
  | literal : String → String → AST
  | binaryOp : String → Option AST → Option AST → AST
  | assignment : String → Option AST → AST
  | ret : Option AST → AST
  | ifStmt : Option AST → Option AST → Option AST → AST
  | whileStmt : Option AST → Option AST → AST
  | forStmt : Option AST → Option AST → Option AST → Option AST → AST
deriving Repr

/-- `VariableNode` as it appears in `ProgramNode::globals` and in
parameter lists: type tag, name, optional initializer. -/
structure VarNode : Type where
  type : String
  name : String
  value : Option AST
deriving Repr

/-- `FunctionNode`: return type, name, parameters, optional body. -/
structure FunctionNode : Type where
  return_type : String
  name : String
  params : List VarNode
  body : Option AST
deriving Repr

/-- `ProgramNode`: the whole-program root. -/
structure ProgramNode : Type where
  functions : List FunctionNode
  globals : List VarNode
deriving Repr

/-- Analyzer state: the local scope chain above global (innermost first,
`current` = head, or the global scope when empty), the global scope, the
accumulated error kinds (`std::vector<ScopeError> errors`), and the lines
printed to `std::cout` by `ScopeAnalyzer::error`. -/
structure St : Type where
  locals : List Scope
  global : Scope
  errors : List ScopeError
  output : List String
deriving Repr

/-- The message text built by the `switch` in `ScopeAnalyzer::error`. -/
def errMsg : ScopeError → String → String
  | .UndefinedFunction, n => "Undefined function: " ++ n
  | .UndeclaredVariable, n => "Undeclared variable: " ++ n
  | .VariableRedefined, n => "Variable redefined: " ++ n
  | .FunctionRedefined, n => "Function redefined: " ++ n

/-- `ScopeAnalyzer::error`: push the kind onto `errors` and print
`"Error: " + msg`. -/
def recordError (st : St) (e : ScopeError) (n : String) : St :=
  { st with errors := st.errors ++ [e]
            output := st.output ++ ["Error: " ++ errMsg e n] }

/-- `enter_scope`: push a fresh scope whose parent is the current one. -/
def enterScope (st : St) : St :=
  { st with locals := [] :: st.locals }

/-- `leave_scope`: pop the current scope, returning to its parent. -/
def leaveScope (st : St) : St :=
  { st with locals := st.locals.tail }

/-- `current->in_scope(n)`: membership in the innermost scope only. -/
def inScopeCurrent (st : St) (n : String) : Bool :=
  match st.locals with
  | [] => st.global.inScope n
  | s :: _ => s.inScope n

/-- `current->add(n, t)`: attempt a binding in the innermost scope. -/
def addCurrent (st : St) (n t : String) : Bool × St :=
  match st.locals with
  | [] =>
    let (ok, g) := st.global.addBinding n t
    (ok, { st with global := g })
  | s :: rest =>
    let (ok, s2) := s.addBinding n t
    (ok, { st with locals := s2 :: rest })

/-- `current->find(n)`: lookup through the whole chain down to global. -/
def currentFind (st : St) (n : String) : String :=
  chainFind (st.locals ++ [st.global]) n

/-- `global->find(n)`: lookup in the global scope alone (it has no
parent). -/
def globalFind (st : St) (n : String) : String :=
  chainFind [st.global] n

mutual

/-- `ScopeAnalyzer::check_node`: the generic recursive node check,
one case per `dynamic_cast` branch; `literal` falls through untouched. -/
def check_node : AST → St → St
  | .block stmts, st => leaveScope (check_list stmts (enterScope st))
  | .varDecl t n v, st =>
    let st1 :=
      if inScopeCurrent st n then recordError st .VariableRedefined n
      else (addCurrent st n t).2
    check_opt v st1
  | .call n args, st =>
    let st1 :=
      if globalFind st n ≠ "function" then recordError st .UndefinedFunction n
      else st
    check_list args st1
  | .nameRef n, st =>
    if currentFind st n = "" then recordError st .UndeclaredVariable n else st
  | .assignment n v, st =>
    let st1 := check_opt v st
    if currentFind st1 n = "" then recordError st1 .UndeclaredVariable n else st1
  | .ret v, st => check_opt v st
  | .ifStmt c tb eb, st => check_opt eb (check_opt tb (check_opt c st))
  | .whileStmt c b, st => check_opt b (check_opt c st)
  | .forStmt i c inc b, st =>
    leaveScope (check_opt b (check_opt inc (check_opt c (check_opt i (enterScope st)))))
  | .binaryOp _ l r, st => check_opt r (check_opt l st)
  | .literal _ _, st => st

/-- Check a vector of child nodes in order (statement lists, call
arguments). -/
def check_list : List AST → St → St
  | [], st => st
  | node :: rest, st => check_list rest (check_node node st)

/-- Check an optional child (`if (p) check_node(p.get())`, and the null
guard at the top of `check_node`). -/
def check_opt : Option AST → St → St
  | none, st => st
  | some node, st => check_node node st

end

/-- Phase 1, first loop: declare each global variable into the global
scope; a failed `add` records `VariableRedefined`. -/
def declare_globals : List VarNode → St → St
  | [], st => st
  | v :: rest, st =>
    let (ok, g) := st.global.addBinding v.name v.type
    let st1 := { st with global := g }
    declare_globals rest
      (if ok then st1 else recordError st1 .VariableRedefined v.name)

/-- Phase 1, second loop: declare each function name as `"function"` in
the global scope; a failed `add` records `FunctionRedefined`. -/
def declare_functions : List FunctionNode → St → St
  | [], st => st
  | f :: rest, st =>
    let (ok, g) := st.global.addBinding f.name "function"
    let st1 := { st with global := g }
    declare_functions rest
      (if ok then st1 else recordError st1 .FunctionRedefined f.name)

/-- `check_function`: open a scope under global, declare the parameters
(duplicates record `VariableRedefined`), check the body, close the
scope. -/
def check_params : List VarNode → St → St
  | [], st => st
  | p :: rest, st =>
    let (ok, st1) := addCurrent st p.name p.type
    check_params rest
      (if ok then st1 else recordError st1 .VariableRedefined p.name)

/-- `ScopeAnalyzer::check_function` on one function. -/
def check_function (f : FunctionNode) (st : St) : St :=
  leaveScope (check_opt f.body (check_params f.params (enterScope st)))

/-- Phase 2: check every function body in declaration order. -/
def check_functions : List FunctionNode → St → St
  | [], st => st
  | f :: rest, st => check_functions rest (check_function f st)

/-- Phase 3: check each global initializer (when present) against the
global scope. -/
def check_global_inits : List VarNode → St → St
  | [], st => st
  | v :: rest, st => check_global_inits rest (check_opt v.value st)

/-- The analyzer's state at construction: empty global scope, `current`
pointing at it, no errors. -/
def initState : St :=
  { locals := [], global := [], errors := [], output := [] }

/-- The state after one `ScopeAnalyzer::check(program)` invocation on a
fresh analyzer: phase 1 (globals then functions), phase 2, phase 3. -/
def analyze (p : ProgramNode) : St :=
  check_global_inits p.globals
    (check_functions p.functions
      (declare_functions p.functions
        (declare_globals p.globals initState)))

/-- `check`'s return value: `errors.empty()`. -/
def check (p : ProgramNode) : Bool :=
  (analyze p).errors.isEmpty

/-- `getErrors()`: the recorded error kinds, in discovery order. -/
def getErrors (p : ProgramNode) : List ScopeError :=
  (analyze p).errors

/-- `passed()`: `errors.empty()`. -/
def passed (p : ProgramNode) : Bool :=
  (analyze p).errors.isEmpty

/-- `errorCount()`: `errors.size()`. -/
def errorCount (p : ProgramNode) : Nat :=
  (analyze p).errors.length

/-! ### Basic facts about scope lookup and insertion -/

/-- A successful lookup is unaffected by appending further bindings. -/
theorem Scope.lookupType_append_of_some {s : Scope} {k t : String}
    (h : s.lookupType k = some t) (s2 : Scope) :
    (s ++ s2).lookupType k = some t := by
  induction s with
  | nil => simp [Scope.lookupType] at h
  | cons hd tl ih =>
    obtain ⟨a, b⟩ := hd
    by_cases hk : a = k
    · simpa [Scope.lookupType, hk] using h
    · simp only [Scope.lookupType, hk, if_neg] at h ⊢
      simp only [List.cons_append, Scope.lookupType, hk, if_false]
      exact ih h

/-- A failed lookup resolves in the appended tail. -/
theorem Scope.lookupType_append_of_none {s : Scope} {k : String}
    (h : s.lookupType k = none) (s2 : Scope) :
    (s ++ s2).lookupType k = s2.lookupType k := by
  induction s with
  | nil => simp
  | cons hd tl ih =>
    obtain ⟨a, b⟩ := hd
    by_cases hk : a = k
    · simp [Scope.lookupType, hk] at h
    · simp only [Scope.lookupType, hk, if_false] at h
      simp only [List.cons_append, Scope.lookupType, hk, if_false]
      exact ih h

/-- `Scope::add` never disturbs a binding that is already present. -/
theorem Scope.lookupType_addBinding_of_some {s : Scope} {k t : String}
    (h : s.lookupType k = some t) (n t' : String) :
    ((s.addBinding n t').2).lookupType k = some t := by
  unfold Scope.addBinding
  by_cases hn : (s.lookupType n).isSome
  · simpa [hn]
  · simpa [hn] using Scope.lookupType_append_of_some h [(n, t')]

/-- `Scope::add` for one name leaves lookups of other names unchanged. -/
theorem Scope.lookupType_addBinding_of_ne {s : Scope} {k n : String}
    (h : k ≠ n) (t' : String) :
    ((s.addBinding n t').2).lookupType k = s.lookupType k := by
  unfold Scope.addBinding
  by_cases hn : (s.lookupType n).isSome
  · simp [hn]
  · simp only [hn, Bool.false_eq_true, if_false]
    rcases hs : s.lookupType k with _ | t
    · rw [Scope.lookupType_append_of_none hs]
      simp [Scope.lookupType, Ne.symm h, hs]
    · exact Scope.lookupType_append_of_some hs _

/-- Adding an absent name makes it resolvable to the added type. -/
theorem Scope.lookupType_addBinding_self {s : Scope} {n : String}
    (h : s.lookupType n = none) (t : String) :
    ((s.addBinding n t).2).lookupType n = some t := by
  unfold Scope.addBinding
  simp only [h, Option.isSome_none, Bool.false_eq_true, if_false]
  rw [Scope.lookupType_append_of_none h]
  simp [Scope.lookupType]

/-- `Scope::find` on a chain whose head resolves the name. -/
theorem chainFind_cons_of_some {s : Scope} {n t : String}
    (h : s.lookupType n = some t) (rest : List Scope) :
    chainFind (s :: rest) n = t := by
  simp [chainFind, h]

/-- `Scope::find` skips a scope that does not bind the name. -/
theorem chainFind_cons_of_none {s : Scope} {n : String}
    (h : s.lookupType n = none) (rest : List Scope) :
    chainFind (s :: rest) n = chainFind rest n := by
  simp [chainFind, h]

/-! ### The diagnostic lines printed by `ScopeAnalyzer::error` -/

/-- The full line printed for one error: `"Error: " + msg`. -/
def errLine (e : ScopeError) (n : String) : String :=
  "Error: " ++ errMsg e n

/-- The per-kind constant prefix of a printed line. -/
def msgHead : ScopeError → String
  | .UndefinedFunction => "Error: Undefined function: "
  | .UndeclaredVariable => "Error: Undeclared variable: "
  | .VariableRedefined => "Error: Variable redefined: "
  | .FunctionRedefined => "Error: Function redefined: "

theorem errLine_data (e : ScopeError) (n : String) :
    (errLine e n).data = (msgHead e).data ++ n.data := by
  cases e <;>
    · show ("Error: " ++ (_ ++ n)).data = _
      rw [String.data_append, String.data_append, ← List.append_assoc]
      exact congrArg (· ++ n.data) (by decide)

/-- Two concrete prefixes that disagree at one position never yield equal
concatenations. -/
theorem append_ne_of_ne_at {p1 p2 a b : List Char} (i : Nat)
    (h1 : i < p1.length) (h2 : i < p2.length) (hne : p1[i]? ≠ p2[i]?) :
    p1 ++ a ≠ p2 ++ b := by
  intro h
  apply hne
  calc p1[i]? = (p1 ++ a)[i]? := (List.getElem?_append_left h1).symm
    _ = (p2 ++ b)[i]? := by rw [h]
    _ = p2[i]? := List.getElem?_append_left h2

/-- A printed line determines both the error kind and the offending
name. -/
theorem errLine_inj {e e' : ScopeError} {n n' : String}
    (h : errLine e n = errLine e' n') : e = e' ∧ n = n' := by
  have hd : (msgHead e).data ++ n.data = (msgHead e').data ++ n'.data := by
    have := congrArg String.data h
    rwa [errLine_data, errLine_data] at this
  cases e <;> cases e' <;> simp only [msgHead] at hd <;>
    first
      | exact ⟨rfl, String.ext (List.append_cancel_left hd)⟩
      | exact absurd hd (append_ne_of_ne_at 7 (by decide) (by decide) (by decide))
      | exact absurd hd (append_ne_of_ne_at 9 (by decide) (by decide) (by decide))
      | exact absurd hd (append_ne_of_ne_at 11 (by decide) (by decide) (by decide))

/-- Relation: `st'` extends `st` by a (possibly empty) batch of recorded
errors: kinds appended to `errors`, matching lines appended to `output`. -/
def Emits (st st' : St) : Prop :=
  ∃ l : List (ScopeError × String),
    st'.errors = st.errors ++ l.map Prod.fst ∧
    st'.output = st.output ++ l.map (fun en => errLine en.1 en.2)

theorem Emits.rfl (st : St) : Emits st st :=
  ⟨[], by simp, by simp⟩

theorem Emits.trans {s1 s2 s3 : St} (h1 : Emits s1 s2) (h2 : Emits s2 s3) :
    Emits s1 s3 := by
  obtain ⟨l1, he1, ho1⟩ := h1
  obtain ⟨l2, he2, ho2⟩ := h2
  exact ⟨l1 ++ l2, by simp [he2, he1], by simp [ho2, ho1]⟩

theorem emits_of_fields {st st' : St} (h1 : st'.errors = st.errors)
    (h2 : st'.output = st.output) : Emits st st' :=
  ⟨[], by simp [h1], by simp [h2]⟩

theorem emits_recordError (st : St) (e : ScopeError) (n : String) :
    Emits st (recordError st e n) :=
  ⟨[(e, n)], by simp [recordError], by simp [recordError, errLine]⟩

theorem emits_enterScope (st : St) : Emits st (enterScope st) :=
  emits_of_fields rfl rfl

theorem emits_leaveScope (st : St) : Emits st (leaveScope st) :=
  emits_of_fields rfl rfl

theorem addCurrent_errors (st : St) (n t : String) :
    ((addCurrent st n t).2).errors = st.errors := by
  cases h : st.locals <;> simp [addCurrent, h]

theorem addCurrent_output (st : St) (n t : String) :
    ((addCurrent st n t).2).output = st.output := by
  cases h : st.locals <;> simp [addCurrent, h]

theorem emits_addCurrent (st : St) (n t : String) :
    Emits st ((addCurrent st n t).2) :=
  emits_of_fields (addCurrent_errors st n t) (addCurrent_output st n t)

mutual

theorem emits_check_node : ∀ (n : AST) (st : St), Emits st (check_node n st)
  | .block stmts, st => by
    simp only [check_node]
    exact ((emits_enterScope st).trans (emits_check_list stmts _)).trans
      (emits_leaveScope _)
  | .varDecl t n v, st => by
    simp only [check_node]
    refine Emits.trans ?_ (emits_check_opt v _)
    by_cases h : inScopeCurrent st n
    · simpa [h] using emits_recordError st .VariableRedefined n
    · simpa [h] using emits_addCurrent st n t
  | .call n args, st => by
    simp only [check_node]
    refine Emits.trans ?_ (emits_check_list args _)
    by_cases h : globalFind st n = "function"
    · simpa [h] using Emits.rfl st
    · simpa [h] using emits_recordError st .UndefinedFunction n
  | .nameRef n, st => by
    simp only [check_node]
    by_cases h : currentFind st n = ""
    · simpa [h] using emits_recordError st .UndeclaredVariable n
    · simpa [h] using Emits.rfl st
  | .assignment n v, st => by
    simp only [check_node]
    refine Emits.trans (emits_check_opt v st) ?_
    by_cases h : currentFind (check_opt v st) n = ""
    · simpa [h] using emits_recordError (check_opt v st) .UndeclaredVariable n
    · simpa [h] using Emits.rfl (check_opt v st)
  | .ret v, st => by
    simp only [check_node]; exact emits_check_opt v st
  | .ifStmt c tb eb, st => by
    simp only [check_node]
    exact ((emits_check_opt c st).trans (emits_check_opt tb _)).trans
      (emits_check_opt eb _)
  | .whileStmt c b, st => by
    simp only [check_node]
    exact (emits_check_opt c st).trans (emits_check_opt b _)
  | .forStmt i c inc b, st => by
    simp only [check_node]
    exact (((((emits_enterScope st).trans (emits_check_opt i _)).trans
      (emits_check_opt c _)).trans (emits_check_opt inc _)).trans
      (emits_check_opt b _)).trans (emits_leaveScope _)
  | .binaryOp o l r, st => by
    simp only [check_node]
    exact (emits_check_opt l st).trans (emits_check_opt r _)
  | .literal t v, st => by
    simp only [check_node]; exact Emits.rfl st

theorem emits_check_list : ∀ (ns : List AST) (st : St), Emits st (check_list ns st)
  | [], st => by simp only [check_list]; exact Emits.rfl st
  | n :: rest, st => by
    simp only [check_list]
    exact (emits_check_node n st).trans (emits_check_list rest _)

theorem emits_check_opt : ∀ (o : Option AST) (st : St), Emits st (check_opt o st)
  | none, st => by simp only [check_opt]; exact Emits.rfl st
  | some n, st => by simp only [check_opt]; exact emits_check_node n st

end

/-! ### Error/output deltas of the phase drivers -/

theorem emits_ite_record (st : St) (c : Prop) [Decidable c] (e : ScopeError) (n : String) :
    Emits st (if c then st else recordError st e n) := by
  by_cases h : c
  · simpa [h] using Emits.rfl st
  · simpa [h] using emits_recordError st e n

theorem emits_declare_globals : ∀ (gs : List VarNode) (st : St),
    Emits st (declare_globals gs st)
  | [], st => by simp only [declare_globals]; exact Emits.rfl st
  | v :: rest, st => by
    simp only [declare_globals]
    refine Emits.trans ?_ (emits_declare_globals rest _)
    refine Emits.trans ?_
      (emits_ite_record { st with global := (st.global.addBinding v.name v.type).2 }
        _ .VariableRedefined v.name)
    exact emits_of_fields rfl rfl

theorem emits_declare_functions : ∀ (fs : List FunctionNode) (st : St),
    Emits st (declare_functions fs st)
  | [], st => by simp only [declare_functions]; exact Emits.rfl st
  | f :: rest, st => by
    simp only [declare_functions]
    refine Emits.trans ?_ (emits_declare_functions rest _)
    refine Emits.trans ?_
      (emits_ite_record { st with global := (st.global.addBinding f.name "function").2 }
        _ .FunctionRedefined f.name)
    exact emits_of_fields rfl rfl

theorem emits_check_params : ∀ (ps : List VarNode) (st : St),
    Emits st (check_params ps st)
  | [], st => by simp only [check_params]; exact Emits.rfl st
  | p :: rest, st => by
    simp only [check_params]
    refine Emits.trans ?_ (emits_check_params rest _)
    refine Emits.trans (emits_addCurrent st p.name p.type) ?_
    exact emits_ite_record _ _ .VariableRedefined p.name

theorem emits_check_function (f : FunctionNode) (st : St) :
    Emits st (check_function f st) := by
  unfold check_function
  exact (((emits_enterScope st).trans (emits_check_params f.params _)).trans
    (emits_check_opt f.body _)).trans (emits_leaveScope _)

theorem emits_check_functions : ∀ (fs : List FunctionNode) (st : St),
    Emits st (check_functions fs st)
  | [], st => by simp only [check_functions]; exact Emits.rfl st
  | f :: rest, st => by
    simp only [check_functions]
    exact (emits_check_function f st).trans (emits_check_functions rest _)

theorem emits_check_global_inits : ∀ (gs : List VarNode) (st : St),
    Emits st (check_global_inits gs st)
  | [], st => by simp only [check_global_inits]; exact Emits.rfl st
  | v :: rest, st => by
    simp only [check_global_inits]
    exact (emits_check_opt v.value st).trans (emits_check_global_inits rest _)

theorem emits_analyze (p : ProgramNode) : Emits initState (analyze p) := by
  unfold analyze
  exact ((emits_declare_globals p.globals initState).trans
    (emits_declare_functions p.functions _)).trans
    ((emits_check_functions p.functions _).trans
      (emits_check_global_inits p.globals _))

/-- Membership in `output` is never lost along an `Emits` step. -/
theorem Emits.output_mem {st st' : St} (h : Emits st st') {msg : String}
    (hm : msg ∈ st.output) : msg ∈ st'.output := by
  obtain ⟨l, _, ho⟩ := h
  rw [ho]
  exact List.mem_append_left _ hm

/-- Errors already recorded are never lost along an `Emits` step. -/
theorem Emits.errors_extend {st st' : St} (h : Emits st st') :
    ∃ d : List ScopeError, st'.errors = st.errors ++ d := by
  obtain ⟨l, he, _⟩ := h
  exact ⟨l.map Prod.fst, he⟩

/-! ### The global scope only ever grows: established bindings persist -/

theorem recordError_global (st : St) (e : ScopeError) (n : String) :
    (recordError st e n).global = st.global := rfl

theorem addCurrent_global_some {st : St} {k t : String}
    (h : st.global.lookupType k = some t) (n t' : String) :
    ((addCurrent st n t').2).global.lookupType k = some t := by
  cases hl : st.locals <;> simp [addCurrent, hl]
  · exact Scope.lookupType_addBinding_of_some h n t'
  · exact h

theorem ite_record_global (st : St) (c : Prop) [Decidable c] (e : ScopeError) (n : String) :
    (if c then st else recordError st e n).global = st.global := by
  by_cases h : c <;> simp [h, recordError_global]

mutual

theorem global_mono_node : ∀ (node : AST) (st : St) {k t : String},
    st.global.lookupType k = some t →
    (check_node node st).global.lookupType k = some t
  | .block stmts, st, k, t, h => by
    simp only [check_node, leaveScope]
    exact global_mono_list stmts (enterScope st) h
  | .varDecl ty n v, st, k, t, h => by
    simp only [check_node]
    refine global_mono_opt v _ ?_
    by_cases hc : inScopeCurrent st n
    · simpa [hc] using h
    · simpa [hc] using addCurrent_global_some h n ty
  | .call n args, st, k, t, h => by
    simp only [check_node]
    refine global_mono_list args _ ?_
    by_cases hc : globalFind st n = "function" <;> simp [hc, recordError_global, h]
  | .nameRef n, st, k, t, h => by
    simp only [check_node]
    by_cases hc : currentFind st n = "" <;> simp [hc, recordError_global, h]
  | .assignment n v, st, k, t, h => by
    simp only [check_node]
    have h1 := global_mono_opt v st h
    by_cases hc : currentFind (check_opt v st) n = "" <;>
      simp [hc, recordError_global, h1]
  | .ret v, st, k, t, h => by
    simp only [check_node]; exact global_mono_opt v st h
  | .ifStmt c tb eb, st, k, t, h => by
    simp only [check_node]
    exact global_mono_opt eb _ (global_mono_opt tb _ (global_mono_opt c st h))
  | .whileStmt c b, st, k, t, h => by
    simp only [check_node]
    exact global_mono_opt b _ (global_mono_opt c st h)
  | .forStmt i c inc b, st, k, t, h => by
    simp only [check_node, leaveScope]
    exact global_mono_opt b _ (global_mono_opt inc _ (global_mono_opt c _
      (global_mono_opt i (enterScope st) h)))
  | .binaryOp o l r, st, k, t, h => by
    simp only [check_node]
    exact global_mono_opt r _ (global_mono_opt l st h)
  | .literal ty v, st, k, t, h => by
    simp only [check_node]; exact h

theorem global_mono_list : ∀ (ns : List AST) (st : St) {k t : String},
    st.global.lookupType k = some t →
    (check_list ns st).global.lookupType k = some t
  | [], st, k, t, h => by simp only [check_list]; exact h
  | n :: rest, st, k, t, h => by
    simp only [check_list]
    exact global_mono_list rest _ (global_mono_node n st h)

theorem global_mono_opt : ∀ (o : Option AST) (st : St) {k t : String},
    st.global.lookupType k = some t →
    (check_opt o st).global.lookupType k = some t
  | none, st, k, t, h => by simp only [check_opt]; exact h
  | some n, st, k, t, h => by simp only [check_opt]; exact global_mono_node n st h

end

theorem global_mono_params : ∀ (ps : List VarNode) (st : St) {k t : String},
    st.global.lookupType k = some t →
    (check_params ps st).global.lookupType k = some t
  | [], st, k, t, h => by simp only [check_params]; exact h
  | p :: rest, st, k, t, h => by
    simp only [check_params]
    refine global_mono_params rest _ ?_
    have h1 := addCurrent_global_some h p.name p.type
    by_cases hc : (addCurrent st p.name p.type).1 <;>
      simp [hc, recordError_global, h1]

theorem global_mono_function (f : FunctionNode) (st : St) {k t : String}
    (h : st.global.lookupType k = some t) :
    (check_function f st).global.lookupType k = some t := by
  unfold check_function
  simp only [leaveScope]
  exact global_mono_opt f.body _ (global_mono_params f.params (enterScope st) h)

theorem global_mono_functions : ∀ (fs : List FunctionNode) (st : St) {k t : String},
    st.global.lookupType k = some t →
    (check_functions fs st).global.lookupType k = some t
  | [], st, k, t, h => by simp only [check_functions]; exact h
  | f :: rest, st, k, t, h => by
    simp only [check_functions]
    exact global_mono_functions rest _ (global_mono_function f st h)

theorem global_mono_inits : ∀ (gs : List VarNode) (st : St) {k t : String},
    st.global.lookupType k = some t →
    (check_global_inits gs st).global.lookupType k = some t
  | [], st, k, t, h => by simp only [check_global_inits]; exact h
  | v :: rest, st, k, t, h => by
    simp only [check_global_inits]
    exact global_mono_inits rest _ (global_mono_opt v.value st h)

theorem global_mono_declare_globals : ∀ (gs : List VarNode) (st : St) {k t : String},
    st.global.lookupType k = some t →
    (declare_globals gs st).global.lookupType k = some t
  | [], st, k, t, h => by simp only [declare_globals]; exact h
  | v :: rest, st, k, t, h => by
    simp only [declare_globals]
    refine global_mono_declare_globals rest _ ?_
    have h1 := Scope.lookupType_addBinding_of_some h v.name v.type
    by_cases hc : (st.global.addBinding v.name v.type).1 <;>
      simp [hc, recordError_global, h1]

theorem global_mono_declare_functions : ∀ (fs : List FunctionNode) (st : St) {k t : String},
    st.global.lookupType k = some t →
    (declare_functions fs st).global.lookupType k = some t
  | [], st, k, t, h => by simp only [declare_functions]; exact h
  | f :: rest, st, k, t, h => by
    simp only [declare_functions]
    refine global_mono_declare_functions rest _ ?_
    have h1 := Scope.lookupType_addBinding_of_some h f.name "function"
    by_cases hc : (st.global.addBinding f.name "function").1 <;>
      simp [hc, recordError_global, h1]

/-! ### What phase 1 binds and what it prints -/

theorem declare_globals_skip : ∀ (gs : List VarNode) (st : St) {f : String},
    (∀ v ∈ gs, v.name ≠ f) →
    (declare_globals gs st).global.lookupType f = st.global.lookupType f
  | [], st, f, _ => by simp only [declare_globals]
  | v :: rest, st, f, h => by
    simp only [declare_globals]
    have hv : v.name ≠ f := h v (by simp)
    have hrest : ∀ w ∈ rest, w.name ≠ f := fun w hw => h w (by simp [hw])
    have hnext := declare_globals_skip rest
      ((if (st.global.addBinding v.name v.type).1
        then { st with global := (st.global.addBinding v.name v.type).2 }
        else recordError { st with global := (st.global.addBinding v.name v.type).2 }
          .VariableRedefined v.name)) hrest
    have hlook : ((st.global.addBinding v.name v.type).2).lookupType f
        = st.global.lookupType f :=
      Scope.lookupType_addBinding_of_ne (Ne.symm hv) v.type
    by_cases hc : (st.global.addBinding v.name v.type).1 <;>
      simp only [hc, if_true, if_false, Bool.false_eq_true] at hnext ⊢ <;>
      rw [hnext] <;> simpa [recordError] using hlook

theorem declare_functions_binds : ∀ (fs : List FunctionNode) (st : St) {f : String},
    f ∈ fs.map FunctionNode.name →
    (st.global.lookupType f = none ∨ st.global.lookupType f = some "function") →
    (declare_functions fs st).global.lookupType f = some "function"
  | [], st, f, hmem, _ => by simp at hmem
  | g :: rest, st, f, hmem, hpre => by
    simp only [declare_functions]
    by_cases hg : g.name = f
    · subst hg
      rcases hpre with hnone | hfun
      · have hok : (st.global.addBinding g.name "function").1 = true := by
          simp [Scope.addBinding, hnone]
        have hbound : ((st.global.addBinding g.name "function").2).lookupType g.name
            = some "function" := Scope.lookupType_addBinding_self hnone "function"
        simp only [hok, if_true]
        exact global_mono_declare_functions rest _ hbound
      · have hbound := Scope.lookupType_addBinding_of_some hfun g.name "function"
        by_cases hc : (st.global.addBinding g.name "function").1 <;>
          · simp only [hc, if_true, if_false, Bool.false_eq_true]
            exact global_mono_declare_functions rest _ (by simpa [recordError] using hbound)
    · rcases List.mem_map.mp hmem with ⟨g', hg', hname⟩
      have hmem' : f ∈ rest.map FunctionNode.name := by
        rcases List.mem_cons.mp hg' with h1 | h1
        · exact absurd (h1 ▸ hname) hg
        · exact List.mem_map.mpr ⟨g', h1, hname⟩
      have hlook : ((st.global.addBinding g.name "function").2).lookupType f
          = st.global.lookupType f :=
        Scope.lookupType_addBinding_of_ne (fun hh => hg hh.symm) "function"
      refine declare_functions_binds rest _ hmem' ?_
      by_cases hc : (st.global.addBinding g.name "function").1 <;>
        simpa [hc, recordError] using (hlook ▸ hpre)

/-- Lines printed by the phase-1 globals loop are all `VariableRedefined`
diagnostics. -/
theorem declare_globals_lines : ∀ (gs : List VarNode) (st : St) {msg : String},
    msg ∈ (declare_globals gs st).output →
    msg ∈ st.output ∨ ∃ m, msg = errLine .VariableRedefined m
  | [], st, msg, h => by simp only [declare_globals] at h; exact Or.inl h
  | v :: rest, st, msg, h => by
    simp only [declare_globals] at h
    rcases declare_globals_lines rest _ h with h1 | h1
    · by_cases hc : (st.global.addBinding v.name v.type).1 <;>
        simp only [hc, if_true, if_false, Bool.false_eq_true, recordError] at h1
      · exact Or.inl h1
      · rcases List.mem_append.mp h1 with h2 | h2
        · exact Or.inl h2
        · exact Or.inr ⟨v.name, by simpa [errLine] using List.mem_singleton.mp h2⟩
    · exact Or.inr h1

/-- Lines printed by the phase-1 functions loop are all `FunctionRedefined`
diagnostics. -/
theorem declare_functions_lines : ∀ (fs : List FunctionNode) (st : St) {msg : String},
    msg ∈ (declare_functions fs st).output →
    msg ∈ st.output ∨ ∃ m, msg = errLine .FunctionRedefined m
  | [], st, msg, h => by simp only [declare_functions] at h; exact Or.inl h
  | f :: rest, st, msg, h => by
    simp only [declare_functions] at h
    rcases declare_functions_lines rest _ h with h1 | h1
    · by_cases hc : (st.global.addBinding f.name "function").1 <;>
        simp only [hc, if_true, if_false, Bool.false_eq_true, recordError] at h1
      · exact Or.inl h1
      · rcases List.mem_append.mp h1 with h2 | h2
        · exact Or.inl h2
        · exact Or.inr ⟨f.name, by simpa [errLine] using List.mem_singleton.mp h2⟩
    · exact Or.inr h1

/-- Lines printed while declaring parameters are all `VariableRedefined`
diagnostics. -/
theorem check_params_lines : ∀ (ps : List VarNode) (st : St) {msg : String},
    msg ∈ (check_params ps st).output →
    msg ∈ st.output ∨ ∃ m, msg = errLine .VariableRedefined m
  | [], st, msg, h => by simp only [check_params] at h; exact Or.inl h
  | p :: rest, st, msg, h => by
    simp only [check_params] at h
    rcases check_params_lines rest _ h with h1 | h1
    · by_cases hc : (addCurrent st p.name p.type).1 <;>
        simp only [hc, if_true, if_false, Bool.false_eq_true, recordError] at h1
      · exact Or.inl ((addCurrent_output st p.name p.type) ▸ h1)
      · rw [addCurrent_output st p.name p.type] at h1
        rcases List.mem_append.mp h1 with h2 | h2
        · exact Or.inl h2
        · exact Or.inr ⟨p.name, by simpa [errLine] using List.mem_singleton.mp h2⟩
    · exact Or.inr h1

/-! ### A name bound to `"function"` never triggers `UndefinedFunction` -/

theorem mem_output_recordError {st : St} {msg : String} (h : msg ∈ st.output)
    (e : ScopeError) (n : String) : msg ∈ (recordError st e n).output := by
  simp only [recordError]
  exact List.mem_append_left _ h

theorem not_mem_output_recordError {st : St} {e' : ScopeError} {f : String}
    (h : errLine e' f ∉ st.output) {e : ScopeError} {n : String}
    (hne : ¬(e = e' ∧ n = f)) :
    errLine e' f ∉ (recordError st e n).output := by
  simp only [recordError, List.mem_append, List.mem_singleton]
  rintro (h1 | h1)
  · exact h h1
  · have := errLine_inj (h1 : errLine e' f = errLine e n)
    exact hne ⟨this.1.symm, this.2.symm⟩

mutual

theorem no_undef_node (f : String) : ∀ (node : AST) (st : St),
    st.global.lookupType f = some "function" →
    errLine .UndefinedFunction f ∉ st.output →
    errLine .UndefinedFunction f ∉ (check_node node st).output
  | .block stmts, st, hb, ho => by
    simp only [check_node, leaveScope]
    exact no_undef_list f stmts (enterScope st) hb ho
  | .varDecl ty n v, st, hb, ho => by
    simp only [check_node]
    by_cases hc : inScopeCurrent st n
    · simp only [hc, if_true]
      exact no_undef_opt f v _ hb
        (not_mem_output_recordError ho (by rintro ⟨h1, -⟩; cases h1))
    · simp only [hc, if_false, Bool.false_eq_true]
      exact no_undef_opt f v _ (addCurrent_global_some hb n ty)
        (fun hm => ho ((addCurrent_output st n ty) ▸ hm))
  | .call n args, st, hb, ho => by
    simp only [check_node]
    by_cases hc : globalFind st n = "function"
    · simp only [hc, ne_eq, not_true_eq_false, if_false, Bool.false_eq_true]
      exact no_undef_list f args st hb ho
    · have hnf : n ≠ f := by
        intro h1
        subst h1
        exact hc (by simp [globalFind, chainFind, hb])
      simp only [hc, ne_eq, not_false_eq_true, if_true]
      exact no_undef_list f args _ hb
        (not_mem_output_recordError ho (by rintro ⟨-, h2⟩; exact hnf h2))
  | .nameRef n, st, hb, ho => by
    simp only [check_node]
    by_cases hc : currentFind st n = ""
    · simp only [hc, if_true]
      exact not_mem_output_recordError ho (by rintro ⟨h1, -⟩; cases h1)
    · simpa [hc] using ho
  | .assignment n v, st, hb, ho => by
    simp only [check_node]
    have hb1 := global_mono_opt v st hb
    have ho1 := no_undef_opt f v st hb ho
    by_cases hc : currentFind (check_opt v st) n = ""
    · simp only [hc, if_true]
      exact not_mem_output_recordError ho1 (by rintro ⟨h1, -⟩; cases h1)
    · simpa [hc] using ho1
  | .ret v, st, hb, ho => by
    simp only [check_node]
    exact no_undef_opt f v st hb ho
  | .ifStmt c tb eb, st, hb, ho => by
    simp only [check_node]
    exact no_undef_opt f eb _ (global_mono_opt tb _ (global_mono_opt c st hb))
      (no_undef_opt f tb _ (global_mono_opt c st hb) (no_undef_opt f c st hb ho))
  | .whileStmt c b, st, hb, ho => by
    simp only [check_node]
    exact no_undef_opt f b _ (global_mono_opt c st hb) (no_undef_opt f c st hb ho)
  | .forStmt i c inc b, st, hb, ho => by
    simp only [check_node, leaveScope]
    exact no_undef_opt f b _
      (global_mono_opt inc _ (global_mono_opt c _ (global_mono_opt i (enterScope st) hb)))
      (no_undef_opt f inc _
        (global_mono_opt c _ (global_mono_opt i (enterScope st) hb))
        (no_undef_opt f c _ (global_mono_opt i (enterScope st) hb)
          (no_undef_opt f i (enterScope st) hb ho)))
  | .binaryOp o l r, st, hb, ho => by
    simp only [check_node]
    exact no_undef_opt f r _ (global_mono_opt l st hb) (no_undef_opt f l st hb ho)
  | .literal ty v, st, hb, ho => by
    simp only [check_node]; exact ho

theorem no_undef_list (f : String) : ∀ (ns : List AST) (st : St),
    st.global.lookupType f = some "function" →
    errLine .UndefinedFunction f ∉ st.output →
    errLine .UndefinedFunction f ∉ (check_list ns st).output
  | [], st, hb, ho => by simp only [check_list]; exact ho
  | n :: rest, st, hb, ho => by
    simp only [check_list]
    exact no_undef_list f rest _ (global_mono_node n st hb) (no_undef_node f n st hb ho)

theorem no_undef_opt (f : String) : ∀ (o : Option AST) (st : St),
    st.global.lookupType f = some "function" →
    errLine .UndefinedFunction f ∉ st.output →
    errLine .UndefinedFunction f ∉ (check_opt o st).output
  | none, st, hb, ho => by simp only [check_opt]; exact ho
  | some n, st, hb, ho => by simp only [check_opt]; exact no_undef_node f n st hb ho

end

theorem no_undef_params (f : String) (ps : List VarNode) (st : St)
    (ho : errLine .UndefinedFunction f ∉ st.output) :
    errLine .UndefinedFunction f ∉ (check_params ps st).output := by
  intro hm
  rcases check_params_lines ps st hm with h1 | ⟨m, h1⟩
  · exact ho h1
  · cases (errLine_inj h1).1

theorem no_undef_function (f : String) (fn : FunctionNode) (st : St)
    (hb : st.global.lookupType f = some "function")
    (ho : errLine .UndefinedFunction f ∉ st.output) :
    errLine .UndefinedFunction f ∉ (check_function fn st).output := by
  unfold check_function
  simp only [leaveScope]
  exact no_undef_opt f fn.body _
    (global_mono_params fn.params (enterScope st) hb)
    (no_undef_params f fn.params (enterScope st) ho)

theorem no_undef_functions (f : String) : ∀ (fs : List FunctionNode) (st : St),
    st.global.lookupType f = some "function" →
    errLine .UndefinedFunction f ∉ st.output →
    errLine .UndefinedFunction f ∉ (check_functions fs st).output
  | [], st, _, ho => by simp only [check_functions]; exact ho
  | fn :: rest, st, hb, ho => by
    simp only [check_functions]
    exact no_undef_functions f rest _ (global_mono_function fn st hb)
      (no_undef_function f fn st hb ho)

theorem no_undef_inits (f : String) : ∀ (gs : List VarNode) (st : St),
    st.global.lookupType f = some "function" →
    errLine .UndefinedFunction f ∉ st.output →
    errLine .UndefinedFunction f ∉ (check_global_inits gs st).output
  | [], st, _, ho => by simp only [check_global_inits]; exact ho
  | v :: rest, st, hb, ho => by
    simp only [check_global_inits]
    exact no_undef_inits f rest _ (global_mono_opt v.value st hb)
      (no_undef_opt f v.value st hb ho)

/-! ### Claim C2 -/

theorem initState_global_none (f : String) : initState.global.lookupType f = none := rfl

theorem not_mem_map_name {gs : List VarNode} {f : String}
    (h : f ∉ gs.map VarNode.name) : ∀ v ∈ gs, v.name ≠ f := by
  intro v hv he
  exact h (List.mem_map.mpr ⟨v, hv, he⟩)

/-- C2 (amended): a call to a function declared anywhere in the program's
function list never produces `UndefinedFunction`, provided the function's
name is not also a global variable's name: phase 1 then binds the name to
`"function"` in the global scope before any body or initializer is
walked, the binding is never overwritten, and `Call` resolution accepts
it.  The conclusion states that the diagnostic line naming that function
never appears in the analyzer's output, so no `Call` to it anywhere in
the program recorded `UndefinedFunction`. -/
theorem C2_declared_function_never_undefined (p : ProgramNode) (f : String)
    (h1 : f ∈ p.functions.map FunctionNode.name)
    (h2 : f ∉ p.globals.map VarNode.name) :
    errLine .UndefinedFunction f ∉ (analyze p).output := by
  unfold analyze
  have hskip : (declare_globals p.globals initState).global.lookupType f = none := by
    rw [declare_globals_skip p.globals initState (not_mem_map_name h2)]
    exact initState_global_none f
  have hbind : (declare_functions p.functions
      (declare_globals p.globals initState)).global.lookupType f = some "function" :=
    declare_functions_binds p.functions _ h1 (Or.inl hskip)
  have ho1 : errLine .UndefinedFunction f ∉ (declare_globals p.globals initState).output := by
    intro hm
    rcases declare_globals_lines p.globals initState hm with hx | ⟨m, hx⟩
    · simp [initState] at hx
    · cases (errLine_inj hx).1
  have ho2 : errLine .UndefinedFunction f ∉ (declare_functions p.functions
      (declare_globals p.globals initState)).output := by
    intro hm
    rcases declare_functions_lines p.functions _ hm with hx | ⟨m, hx⟩
    · exact ho1 hx
    · cases (errLine_inj hx).1
  exact no_undef_inits f p.globals _
    (global_mono_functions p.functions _ hbind)
    (no_undef_functions f p.functions _ hbind ho2)

/-- The program refuting C2 as stated: a global variable `f` and a
function `f` coexist; the call to `f` inside `g` is reported as an
undefined function even though `f` appears in the function list. -/
def progC2 : ProgramNode :=
  { globals := [⟨"int", "f", none⟩],
    functions := [⟨"int", "f", [], none⟩,
                  ⟨"int", "g", [], some (.call "f" [])⟩] }

/-- C2 counterexample: in `progC2` the name `"f"` is the name of a
function declared in the program's function list, and yet the call to
`f` records `UndefinedFunction` (the phase-1 declaration of the function
name failed because the global variable `f` already owned the name). -/
theorem C2_counterexample :
    "f" ∈ progC2.functions.map FunctionNode.name ∧
    (analyze progC2).errors = [.FunctionRedefined, .UndefinedFunction] ∧
    errLine .UndefinedFunction "f" ∈ (analyze progC2).output := by
  refine ⟨by decide, ?_, ?_⟩ <;> decide

/-- C2 witness: the amended theorem applied to a two-function program
with a forward call (`g` calls `f`, declared after it). -/
theorem C2_witness :
    ("f" ∈ (ProgramNode.mk
        [⟨"int", "g", [], some (.call "f" [])⟩, ⟨"int", "f", [], none⟩]
        []).functions.map FunctionNode.name) ∧
    ("f" ∉ (ProgramNode.mk
        [⟨"int", "g", [], some (.call "f" [])⟩, ⟨"int", "f", [], none⟩]
        []).globals.map VarNode.name) ∧
    errLine .UndefinedFunction "f" ∉ (analyze (ProgramNode.mk
        [⟨"int", "g", [], some (.call "f" [])⟩, ⟨"int", "f", [], none⟩]
        [])).output :=
  ⟨by decide, by decide,
    C2_declared_function_never_undefined _ "f" (by decide) (by decide)⟩

/-! ### Claim C4: calls to names not bound to `"function"` -/

mutual

/-- Does a `Call` node with the given callee name occur in this subtree? -/
def hasCall (f : String) : AST → Bool
  | .block stmts => hasCallList f stmts
  | .varDecl _ _ v => hasCallOpt f v
  | .call n args => (n = f) || hasCallList f args
  | .nameRef _ => false
  | .literal _ _ => false
  | .binaryOp _ l r => hasCallOpt f l || hasCallOpt f r
  | .assignment _ v => hasCallOpt f v
  | .ret v => hasCallOpt f v
  | .ifStmt c tb eb => hasCallOpt f c || hasCallOpt f tb || hasCallOpt f eb
  | .whileStmt c b => hasCallOpt f c || hasCallOpt f b
  | .forStmt i c inc b =>
    hasCallOpt f i || hasCallOpt f c || hasCallOpt f inc || hasCallOpt f b

def hasCallList (f : String) : List AST → Bool
  | [] => false
  | n :: rest => hasCall f n || hasCallList f rest

def hasCallOpt (f : String) : Option AST → Bool
  | none => false
  | some n => hasCall f n

end

/-- Does some checked subtree of the program (a function body or a global
initializer) contain a `Call` to `f`? -/
def progHasCall (f : String) (p : ProgramNode) : Bool :=
  p.functions.any (fun fn => hasCallOpt f fn.body) ||
    p.globals.any (fun v => hasCallOpt f v.value)

theorem out_mem_opt {st : St} {msg : String} (o : Option AST)
    (h : msg ∈ st.output) : msg ∈ (check_opt o st).output :=
  (emits_check_opt o st).output_mem h

theorem out_mem_list {st : St} {msg : String} (ns : List AST)
    (h : msg ∈ st.output) : msg ∈ (check_list ns st).output :=
  (emits_check_list ns st).output_mem h

mutual

theorem undef_emitted_node (f t : String) (ht : t ≠ "function") :
    ∀ (node : AST) (st : St),
    hasCall f node = true →
    st.global.lookupType f = some t →
    errLine .UndefinedFunction f ∈ (check_node node st).output
  | .block stmts, st, hc, hb => by
    simp only [check_node, leaveScope]
    exact undef_emitted_list f t ht stmts (enterScope st) (by simpa [hasCall] using hc) hb
  | .varDecl ty n v, st, hc, hb => by
    simp only [check_node]
    by_cases hin : inScopeCurrent st n
    · simp only [hin, if_true]
      exact undef_emitted_opt f t ht v _ (by simpa [hasCall] using hc) hb
    · simp only [hin, if_false, Bool.false_eq_true]
      exact undef_emitted_opt f t ht v _ (by simpa [hasCall] using hc)
        (addCurrent_global_some hb n ty)
  | .call n args, st, hc, hb => by
    simp only [check_node]
    simp only [hasCall, Bool.or_eq_true, decide_eq_true_eq] at hc
    rcases hc with hnf | hargs
    · rw [hnf]
      have hfind : globalFind st f = t := by simp [globalFind, chainFind, hb]
      have hcond : globalFind st f ≠ "function" := by rw [hfind]; exact ht
      simp only [hcond, ne_eq, not_false_eq_true, if_true]
      refine out_mem_list args ?_
      simp only [recordError]
      exact List.mem_append_right _ (by simp [errLine])
    · by_cases hcond : globalFind st n = "function"
      · simp only [hcond, ne_eq, not_true_eq_false, if_false, Bool.false_eq_true]
        exact undef_emitted_list f t ht args st hargs hb
      · simp only [hcond, ne_eq, not_false_eq_true, if_true]
        exact undef_emitted_list f t ht args _ hargs hb
  | .nameRef n, st, hc, hb => by simp [hasCall] at hc
  | .literal ty v, st, hc, hb => by simp [hasCall] at hc
  | .binaryOp o l r, st, hc, hb => by
    simp only [check_node]
    simp only [hasCall, Bool.or_eq_true] at hc
    rcases hc with hl | hr
    · exact out_mem_opt r (undef_emitted_opt f t ht l st hl hb)
    · exact undef_emitted_opt f t ht r _ hr (global_mono_opt l st hb)
  | .assignment n v, st, hc, hb => by
    simp only [check_node]
    have h1 := undef_emitted_opt f t ht v st (by simpa [hasCall] using hc) hb
    by_cases hcf : currentFind (check_opt v st) n = ""
    · simp only [hcf, if_true]
      exact mem_output_recordError h1 _ _
    · simpa [hcf] using h1
  | .ret v, st, hc, hb => by
    simp only [check_node]
    exact undef_emitted_opt f t ht v st (by simpa [hasCall] using hc) hb
  | .ifStmt c tb eb, st, hc, hb => by
    simp only [check_node]
    simp only [hasCall, Bool.or_eq_true] at hc
    rcases hc with (hx | hx) | hx
    · exact out_mem_opt eb (out_mem_opt tb (undef_emitted_opt f t ht c st hx hb))
    · exact out_mem_opt eb
        (undef_emitted_opt f t ht tb _ hx (global_mono_opt c st hb))
    · exact undef_emitted_opt f t ht eb _ hx
        (global_mono_opt tb _ (global_mono_opt c st hb))
  | .whileStmt c b, st, hc, hb => by
    simp only [check_node]
    simp only [hasCall, Bool.or_eq_true] at hc
    rcases hc with hx | hx
    · exact out_mem_opt b (undef_emitted_opt f t ht c st hx hb)
    · exact undef_emitted_opt f t ht b _ hx (global_mono_opt c st hb)
  | .forStmt i c inc b, st, hc, hb => by
    simp only [check_node, leaveScope]
    simp only [hasCall, Bool.or_eq_true] at hc
    rcases hc with ((hx | hx) | hx) | hx
    · exact out_mem_opt b (out_mem_opt inc (out_mem_opt c
        (undef_emitted_opt f t ht i (enterScope st) hx hb)))
    · exact out_mem_opt b (out_mem_opt inc
        (undef_emitted_opt f t ht c _ hx (global_mono_opt i (enterScope st) hb)))
    · exact out_mem_opt b (undef_emitted_opt f t ht inc _ hx
        (global_mono_opt c _ (global_mono_opt i (enterScope st) hb)))
    · exact undef_emitted_opt f t ht b _ hx
        (global_mono_opt inc _ (global_mono_opt c _
          (global_mono_opt i (enterScope st) hb)))

theorem undef_emitted_list (f t : String) (ht : t ≠ "function") :
    ∀ (ns : List AST) (st : St),
    hasCallList f ns = true →
    st.global.lookupType f = some t →
    errLine .UndefinedFunction f ∈ (check_list ns st).output
  | [], st, hc, hb => by simp [hasCallList] at hc
  | n :: rest, st, hc, hb => by
    simp only [check_list]
    simp only [hasCallList, Bool.or_eq_true] at hc
    rcases hc with hx | hx
    · exact out_mem_list rest (undef_emitted_node f t ht n st hx hb)
    · exact undef_emitted_list f t ht rest _ hx (global_mono_node n st hb)

theorem undef_emitted_opt (f t : String) (ht : t ≠ "function") :
    ∀ (o : Option AST) (st : St),
    hasCallOpt f o = true →
    st.global.lookupType f = some t →
    errLine .UndefinedFunction f ∈ (check_opt o st).output
  | none, st, hc, hb => by simp [hasCallOpt] at hc
  | some n, st, hc, hb => by
    simp only [check_opt]
    exact undef_emitted_node f t ht n st (by simpa [hasCallOpt] using hc) hb

end

theorem out_mem_functions {st : St} {msg : String} (fs : List FunctionNode)
    (h : msg ∈ st.output) : msg ∈ (check_functions fs st).output :=
  (emits_check_functions fs st).output_mem h

theorem out_mem_inits {st : St} {msg : String} (gs : List VarNode)
    (h : msg ∈ st.output) : msg ∈ (check_global_inits gs st).output :=
  (emits_check_global_inits gs st).output_mem h

theorem undef_emitted_functions (f t : String) (ht : t ≠ "function") :
    ∀ (fs : List FunctionNode) (st : St),
    fs.any (fun fn => hasCallOpt f fn.body) = true →
    st.global.lookupType f = some t →
    errLine .UndefinedFunction f ∈ (check_functions fs st).output
  | [], st, hc, _ => by simp at hc
  | fn :: rest, st, hc, hb => by
    simp only [check_functions]
    simp only [List.any_cons, Bool.or_eq_true] at hc
    rcases hc with hx | hx
    · refine out_mem_functions rest ?_
      unfold check_function
      simp only [leaveScope]
      exact undef_emitted_opt f t ht fn.body _ hx
        (global_mono_params fn.params (enterScope st) hb)
    · exact undef_emitted_functions f t ht rest _ hx (global_mono_function fn st hb)

theorem undef_emitted_inits (f t : String) (ht : t ≠ "function") :
    ∀ (gs : List VarNode) (st : St),
    gs.any (fun v => hasCallOpt f v.value) = true →
    st.global.lookupType f = some t →
    errLine .UndefinedFunction f ∈ (check_global_inits gs st).output
  | [], st, hc, _ => by simp at hc
  | v :: rest, st, hc, hb => by
    simp only [check_global_inits]
    simp only [List.any_cons, Bool.or_eq_true] at hc
    rcases hc with hx | hx
    · exact out_mem_inits rest (undef_emitted_opt f t ht v.value st hx hb)
    · exact undef_emitted_inits f t ht rest _ hx (global_mono_opt v.value st hb)

/-- The type tag the global scope ends up binding for `n` after phase 1
when `n` is a global variable's name: the type of the textually first
global declaration named `n`. -/
def firstGlobalType (p : ProgramNode) (n : String) : Option String :=
  (p.globals.find? (fun v => v.name == n)).map VarNode.type

theorem declare_globals_first : ∀ (gs : List VarNode) (st : St) {n : String} {v0 : VarNode},
    gs.find? (fun v => v.name == n) = some v0 →
    st.global.lookupType n = none →
    (declare_globals gs st).global.lookupType n = some v0.type
  | [], st, n, v0, hfind, _ => by simp at hfind
  | g :: rest, st, n, v0, hfind, hnone => by
    simp only [declare_globals]
    by_cases hp : (g.name == n) = true
    · have hgn : g.name = n := by simpa using hp
      have hv0 : g = v0 := by
        simp only [List.find?_cons, hp] at hfind
        exact Option.some.inj hfind
      have hok : (st.global.addBinding g.name g.type).1 = true := by
        simp [Scope.addBinding, hgn, hnone]
      have hbound : ((st.global.addBinding g.name g.type).2).lookupType n
          = some v0.type := by
        rw [← hgn, ← hv0]
        exact Scope.lookupType_addBinding_self (hgn ▸ hnone) g.type
      simp only [hok, if_true]
      exact global_mono_declare_globals rest _ hbound
    · have hgn : g.name ≠ n := by simpa using hp
      have hp' : (g.name == n) = false := by simpa using hp
      simp only [List.find?_cons, hp'] at hfind
      have hlook : ((st.global.addBinding g.name g.type).2).lookupType n
          = st.global.lookupType n :=
        Scope.lookupType_addBinding_of_ne (Ne.symm hgn) g.type
      refine declare_globals_first rest _ hfind ?_
      by_cases hc : (st.global.addBinding g.name g.type).1 <;>
        simp [hc, recordError, hlook, hnone]

/-- C4 (amended): a call to a name bound in the global scope by a global
`VariableDecl` produces `UndefinedFunction`, provided the variable's
declared type tag is not itself the literal string `"function"`: the
textually first global declaration named `n` fixes the global binding
before phase 1's function loop runs (the function declaration of the same
name, if any, is rejected), the binding is never overwritten, and `Call`
resolution consults the global scope only and demands the bound type
`"function"`. -/
theorem C4_call_to_global_variable_is_undefined (p : ProgramNode) (n t : String)
    (h1 : firstGlobalType p n = some t)
    (h2 : t ≠ "function")
    (h3 : progHasCall n p = true) :
    errLine .UndefinedFunction n ∈ (analyze p).output := by
  unfold analyze
  obtain ⟨v0, hfind, htype⟩ :
      ∃ v0, p.globals.find? (fun v => v.name == n) = some v0 ∧ v0.type = t := by
    unfold firstGlobalType at h1
    rcases hf : p.globals.find? (fun v => v.name == n) with _ | v0
    · rw [hf] at h1; cases h1
    · rw [hf] at h1
      exact ⟨v0, hf, by simpa using h1⟩
  have hbind0 : (declare_globals p.globals initState).global.lookupType n = some t :=
    htype ▸ declare_globals_first p.globals initState hfind rfl
  have hbind1 : (declare_functions p.functions
      (declare_globals p.globals initState)).global.lookupType n = some t :=
    global_mono_declare_functions p.functions _ hbind0
  unfold progHasCall at h3
  rcases Bool.or_eq_true _ _ |>.mp h3 with hx | hx
  · exact out_mem_inits p.globals
      (undef_emitted_functions n t h2 p.functions _ hx hbind1)
  · exact undef_emitted_inits n t h2 p.globals _ hx
      (global_mono_functions p.functions _ hbind1)

/-- The program refuting C4 as stated: the global variable `v` is
declared by a global `VariableDecl` (and by no `FunctionDecl`) with the
pathological type tag `"function"`, and a call to `v` sails through with
no error at all. -/
def progC4 : ProgramNode :=
  { globals := [⟨"function", "v", none⟩],
    functions := [⟨"int", "g", [], some (.call "v" [])⟩] }

/-- C4 counterexample: in `progC4` the name `v` is bound in the global
scope by a global `VariableDecl` and not by any `FunctionDecl`, a call to
`v` occurs, and yet the analyzer records no error whatsoever. -/
theorem C4_counterexample :
    "v" ∈ progC4.globals.map VarNode.name ∧
    "v" ∉ progC4.functions.map FunctionNode.name ∧
    progHasCall "v" progC4 = true ∧
    (analyze progC4).errors = [] := by
  refine ⟨by decide, by decide, by decide, by decide⟩

/-- C4 witness: the amended theorem applied to a program with a global
`int x` and a function whose body calls `x`. -/
theorem C4_witness :
    firstGlobalType (ProgramNode.mk
        [⟨"int", "g", [], some (.call "x" [])⟩] [⟨"int", "x", none⟩]) "x"
      = some "int" ∧
    ("int" : String) ≠ "function" ∧
    progHasCall "x" (ProgramNode.mk
        [⟨"int", "g", [], some (.call "x" [])⟩] [⟨"int", "x", none⟩]) = true ∧
    errLine .UndefinedFunction "x" ∈ (analyze (ProgramNode.mk
        [⟨"int", "g", [], some (.call "x" [])⟩] [⟨"int", "x", none⟩])).output :=
  ⟨by decide, by decide, by decide,
    C4_call_to_global_variable_is_undefined _ "x" "int" (by decide) (by decide) (by decide)⟩

/-! ### Claim C1 -/

/-- C1 (amended): every error record returned by `getErrors` is one of
the four kinds, but the record does not carry the offending name; the
recorded kinds and the diagnostic lines printed at detection time
correspond pairwise — the i-th line is the message of the i-th recorded
kind applied to some offending name.  The name is recoverable only from
that printed line, not from the record. -/
theorem C1_records_pair_with_printed_lines (p : ProgramNode) :
    ∃ l : List (ScopeError × String),
      getErrors p = l.map Prod.fst ∧
      (analyze p).output = l.map (fun en => errLine en.1 en.2) := by
  obtain ⟨l, he, ho⟩ := emits_analyze p
  exact ⟨l, by simpa [getErrors, initState] using he, by simpa [initState] using ho⟩

/-- Two programs differing only in the name of the undeclared variable
used in a global initializer. -/
def progC1a : ProgramNode :=
  { globals := [⟨"int", "a", some (.nameRef "b")⟩], functions := [] }

/-- Companion program to `progC1a` with a different offending name. -/
def progC1b : ProgramNode :=
  { globals := [⟨"int", "a", some (.nameRef "c")⟩], functions := [] }

/-- C1 counterexample: the error sequences returned by `getErrors` for
`progC1a` and `progC1b` are identical although the offending names (`b`
resp. `c`, visible only in the printed lines) differ — so no caller can
recover the offending name from the returned records. -/
theorem C1_counterexample :
    getErrors progC1a = getErrors progC1b ∧
    (analyze progC1a).output = ["Error: Undeclared variable: b"] ∧
    (analyze progC1b).output = ["Error: Undeclared variable: c"] := by
  refine ⟨by decide, by decide, by decide⟩

/-! ### Claim C3 -/

theorem addCurrent_find_self {st : St} {x : String}
    (h : inScopeCurrent st x = false) (t : String) :
    currentFind ((addCurrent st x t).2) x = t := by
  cases hl : st.locals with
  | nil =>
    have hnone : st.global.lookupType x = none := by
      simp only [inScopeCurrent, hl, Scope.inScope] at h
      exact Option.not_isSome_iff_eq_none.mp (by simp [h])
    simp only [addCurrent, hl, currentFind]
    exact chainFind_cons_of_some (Scope.lookupType_addBinding_self hnone t) []
  | cons s rest =>
    have hnone : s.lookupType x = none := by
      simp only [inScopeCurrent, hl, Scope.inScope] at h
      exact Option.not_isSome_iff_eq_none.mp (by simp [h])
    simp only [addCurrent, hl, currentFind]
    exact chainFind_cons_of_some (Scope.lookupType_addBinding_self hnone t) _

/-- C3: for a `VariableDecl`, the declaration attempt precedes the check
of the initializer, so `int x = x;` — a declaration of `x` whose
initializer reads `x`, with `x` not bound in the current scope and with a
nonempty type tag — records no error at all, in particular no
`UndeclaredVariable`: by the time the initializer's `NameRef` is
resolved, `x` is already bound in the current scope. -/
theorem C3_self_referential_initializer_ok (st : St) (t x : String)
    (h1 : inScopeCurrent st x = false) (h2 : t ≠ "") :
    (check_node (.varDecl t x (some (.nameRef x))) st).errors = st.errors ∧
    (check_node (.varDecl t x (some (.nameRef x))) st).output = st.output := by
  have hfind := addCurrent_find_self h1 t
  simp only [check_node, check_opt, h1, if_false, Bool.false_eq_true, hfind, h2,
    addCurrent_errors, addCurrent_output, if_neg]
  exact ⟨trivial, trivial⟩

/-- C3 witness: `int x = x;` checked from the analyzer's start state. -/
theorem C3_witness :
    inScopeCurrent initState "x" = false ∧ ("int" : String) ≠ "" ∧
    (check_node (.varDecl "int" "x" (some (.nameRef "x"))) initState).errors
      = initState.errors :=
  ⟨by decide, by decide,
    (C3_self_referential_initializer_ok initState "int" "x" (by decide) (by decide)).1⟩

/-! ### Targeted equations for single-node unfolding -/

theorem check_node_block (stmts : List AST) (st : St) :
    check_node (.block stmts) st = leaveScope (check_list stmts (enterScope st)) := by
  simp only [check_node]

theorem check_list_cons (n : AST) (rest : List AST) (st : St) :
    check_list (n :: rest) st = check_list rest (check_node n st) := by
  simp only [check_list]

theorem check_list_nil (st : St) : check_list [] st = st := by
  simp only [check_list]

/-! ### Claim C5 -/

/-- A `For` node that declares `x` in its initializer and reads `x` in
its condition, increment, and (block) body. -/
def forProbe (t x : String) : AST :=
  .forStmt (some (.varDecl t x none)) (some (.nameRef x))
    (some (.assignment x (some (.nameRef x)))) (some (.block [.nameRef x]))

/-- C5: a `For` node opens exactly one scope covering initializer,
condition, increment, and body: a variable declared in the initializer
resolves in all three later parts (no error is recorded and the analyzer
state is restored exactly, so the scope was closed), and the variable is
not visible after the `For` node — a following `NameRef` to it records
`UndeclaredVariable` when it was not visible before the loop either. -/
theorem C5_for_scope (st : St) (t x : String)
    (h1 : t ≠ "") (h2 : currentFind st x = "") :
    check_node (forProbe t x) st = st ∧
    (check_list [forProbe t x, .nameRef x] st).errors
      = st.errors ++ [.UndeclaredVariable] := by
  obtain ⟨ls, g, es, os⟩ := st
  have e2 : check_opt (some (.varDecl t x none)) ⟨[] :: ls, g, es, os⟩
      = ⟨[(x, t)] :: ls, g, es, os⟩ := by
    simp [check_opt, check_node, inScopeCurrent, Scope.inScope, Scope.lookupType,
      addCurrent, Scope.addBinding]
  have hfind : currentFind ⟨[(x, t)] :: ls, g, es, os⟩ x = t := by
    simp [currentFind, chainFind, Scope.lookupType]
  have e3 : check_opt (some (.nameRef x)) ⟨[(x, t)] :: ls, g, es, os⟩
      = ⟨[(x, t)] :: ls, g, es, os⟩ := by
    simp [check_opt, check_node, hfind, h1]
  have e4 : check_opt (some (.assignment x (some (.nameRef x))))
      ⟨[(x, t)] :: ls, g, es, os⟩ = ⟨[(x, t)] :: ls, g, es, os⟩ := by
    simp only [check_opt, check_node, e3, hfind, h1]
    simp [hfind, h1]
  have hfind2 : currentFind ⟨[] :: [(x, t)] :: ls, g, es, os⟩ x = t := by
    simp [currentFind, chainFind, Scope.lookupType]
  have e5 : check_opt (some (.block [.nameRef x])) ⟨[(x, t)] :: ls, g, es, os⟩
      = ⟨[(x, t)] :: ls, g, es, os⟩ := by
    simp only [check_opt, check_node, check_list, enterScope]
    simp [hfind2, h1, leaveScope]
  have hstep : check_node (forProbe t x) ⟨ls, g, es, os⟩ = ⟨ls, g, es, os⟩ := by
    simp only [forProbe, check_node]
    rw [show enterScope ⟨ls, g, es, os⟩ = ⟨[] :: ls, g, es, os⟩ from rfl,
      e2, e3, e4, e5]
    rfl
  refine ⟨hstep, ?_⟩
  simp only [check_list]
  rw [hstep]
  simp [check_node, h2, recordError]

/-- C5 witness: `for (int i; i; i = i) { i; }` checked from the start
state, followed by a reference to `i`. -/
theorem C5_witness :
    ("int" : String) ≠ "" ∧ currentFind initState "i" = "" ∧
    check_node (forProbe "int" "i") initState = initState :=
  ⟨by decide, by decide, (C5_for_scope initState "int" "i" (by decide) (by decide)).1⟩

/-! ### Claim C7 -/

/-- C7: declaring `x` in an outer block and redeclaring `x` in a directly
nested inner block produces zero errors (the analyzer state is returned
exactly unchanged, shadowing is legal), and a lookup performed in the
inner scope resolves to the inner binding's type: the run stays silent
even when the outer binding's type tag is the empty string (only the
inner tag `t2` must be nonempty), and `Scope::find` on the inner chain
returns the inner type. -/
theorem C7_shadowing (st : St) (x t1 t2 : String) (h : t2 ≠ "") :
    check_node (.block [.varDecl t1 x none,
      .block [.varDecl t2 x none, .nameRef x]]) st = st ∧
    (∀ rest : List Scope, chainFind ([(x, t2)] :: [(x, t1)] :: rest) x = t2) := by
  obtain ⟨ls, g, es, os⟩ := st
  have a1 : check_node (.varDecl t1 x none) ⟨[] :: ls, g, es, os⟩
      = ⟨[(x, t1)] :: ls, g, es, os⟩ := by
    simp [check_node, check_opt, inScopeCurrent, Scope.inScope, Scope.lookupType,
      addCurrent, Scope.addBinding]
  have a2 : check_node (.varDecl t2 x none) ⟨[] :: [(x, t1)] :: ls, g, es, os⟩
      = ⟨[(x, t2)] :: [(x, t1)] :: ls, g, es, os⟩ := by
    simp [check_node, check_opt, inScopeCurrent, Scope.inScope, Scope.lookupType,
      addCurrent, Scope.addBinding]
  have hf : currentFind ⟨[(x, t2)] :: [(x, t1)] :: ls, g, es, os⟩ x = t2 := by
    simp [currentFind, chainFind, Scope.lookupType]
  have a3 : check_node (.nameRef x) ⟨[(x, t2)] :: [(x, t1)] :: ls, g, es, os⟩
      = ⟨[(x, t2)] :: [(x, t1)] :: ls, g, es, os⟩ := by
    simp [check_node, hf, h]
  have a4 : check_node (.block [.varDecl t2 x none, .nameRef x])
      ⟨[(x, t1)] :: ls, g, es, os⟩ = ⟨[(x, t1)] :: ls, g, es, os⟩ := by
    rw [check_node_block, check_list_cons,
      show enterScope ⟨[(x, t1)] :: ls, g, es, os⟩
        = ⟨[] :: [(x, t1)] :: ls, g, es, os⟩ from rfl, a2, check_list_cons, a3,
      check_list_nil]
    rfl
  refine ⟨?_, ?_⟩
  · rw [check_node_block, check_list_cons,
      show enterScope ⟨ls, g, es, os⟩ = ⟨[] :: ls, g, es, os⟩ from rfl, a1,
      check_list_cons, a4, check_list_nil]
    rfl
  · intro rest
    simp [chainFind, Scope.lookupType]

/-- C7 witness: outer `x` (with empty type tag) shadowed by inner
`int x`; the silent run shows the inner binding won the lookup. -/
theorem C7_witness :
    ("int" : String) ≠ "" ∧
    check_node (.block [.varDecl "" "x" none,
      .block [.varDecl "int" "x" none, .nameRef "x"]]) initState = initState ∧
    chainFind [[("x", "int")], [("x", "")]] "x" = "int" :=
  ⟨by decide, (C7_shadowing initState "x" "" "int" (by decide)).1,
    (C7_shadowing initState "x" "" "int" (by decide)).2 []⟩

/-! ### Claim C8 -/

/-- C8: `check` returns true exactly when the error sequence returned by
`getErrors` is empty, and `errorCount` equals the length of that
sequence. -/
theorem C8_pass_iff_no_errors (p : ProgramNode) :
    (check p = true ↔ getErrors p = []) ∧
    errorCount p = (getErrors p).length := by
  unfold check getErrors errorCount
  exact ⟨List.isEmpty_iff, rfl⟩

/-! ### Claim C10 -/

/-- C10: the empty string is `Scope::find`'s not-found sentinel, and the
sentinel is conflated with a legitimate binding whose type tag is empty:
`find` returns `""` when no scope in the chain binds the name, and also
when the nearest binding's type tag is itself `""`; consequently a block
`{ <""> x; x; x = <nothing>; }` that declares `x` with an empty type tag
records `UndeclaredVariable` twice (once for the `NameRef`, once for the
`Assignment` target) even though `x` was declared. -/
theorem C10_empty_string_sentinel (x : String) (st : St) (chain : List Scope)
    (h : ∀ s ∈ chain, s.lookupType x = none) :
    chainFind chain x = "" ∧
    (∀ (s : Scope) (rest : List Scope), s.lookupType x = some "" →
      chainFind (s :: rest) x = "") ∧
    (check_node (.block [.varDecl "" x none, .nameRef x, .assignment x none]) st).errors
      = st.errors ++ [.UndeclaredVariable, .UndeclaredVariable] ∧
    (check_node (.block [.varDecl "" x none, .nameRef x, .assignment x none]) st).output
      = st.output ++ [errLine .UndeclaredVariable x, errLine .UndeclaredVariable x] := by
  obtain ⟨ls, g, es, os⟩ := st
  have b1 : check_node (.varDecl "" x none) ⟨[] :: ls, g, es, os⟩
      = ⟨[(x, "")] :: ls, g, es, os⟩ := by
    simp [check_node, check_opt, inScopeCurrent, Scope.inScope, Scope.lookupType,
      addCurrent, Scope.addBinding]
  have hf0 : ∀ (es' : List ScopeError) (os' : List String),
      currentFind ⟨[(x, "")] :: ls, g, es', os'⟩ x = "" := by
    intro es' os'
    simp [currentFind, chainFind, Scope.lookupType]
  have b2 : check_node (.nameRef x) ⟨[(x, "")] :: ls, g, es, os⟩
      = ⟨[(x, "")] :: ls, g, es ++ [.UndeclaredVariable],
          os ++ [errLine .UndeclaredVariable x]⟩ := by
    simp [check_node, hf0, recordError, errLine]
  have b3 : check_node (.assignment x none)
      ⟨[(x, "")] :: ls, g, es ++ [.UndeclaredVariable],
        os ++ [errLine .UndeclaredVariable x]⟩
      = ⟨[(x, "")] :: ls, g, es ++ [.UndeclaredVariable, .UndeclaredVariable],
          os ++ [errLine .UndeclaredVariable x, errLine .UndeclaredVariable x]⟩ := by
    simp [check_node, check_opt, hf0, recordError, errLine]
  have hmain : check_node (.block [.varDecl "" x none, .nameRef x, .assignment x none])
      ⟨ls, g, es, os⟩
      = ⟨ls, g, es ++ [.UndeclaredVariable, .UndeclaredVariable],
          os ++ [errLine .UndeclaredVariable x, errLine .UndeclaredVariable x]⟩ := by
    rw [check_node_block, check_list_cons,
      show enterScope ⟨ls, g, es, os⟩ = ⟨[] :: ls, g, es, os⟩ from rfl, b1,
      check_list_cons, b2, check_list_cons, b3, check_list_nil]
    rfl
  refine ⟨?_, ?_, by rw [hmain], by rw [hmain]⟩
  · induction chain with
    | nil => simp [chainFind]
    | cons s rest ih =>
      rw [chainFind_cons_of_none (h s (by simp)) rest]
      exact ih (fun s' hs' => h s' (by simp [hs']))
  · intro s rest hs
    exact chainFind_cons_of_some hs rest

/-- C10 witness: a chain of one scope binding only `y` resolves `x` to
the sentinel `""`, and the empty-type-tag block records two
`UndeclaredVariable` errors from the start state. -/
theorem C10_witness :
    (∀ s ∈ [[("y", "int")]], Scope.lookupType s "x" = none) ∧
    chainFind [[("y", "int")]] "x" = "" ∧
    (check_node (.block [.varDecl "" "x" none, .nameRef "x",
      .assignment "x" none]) initState).errors
      = initState.errors ++ [.UndeclaredVariable, .UndeclaredVariable] :=
  ⟨by decide,
    (C10_empty_string_sentinel "x" initState [[("y", "int")]] (by decide)).1,
    (C10_empty_string_sentinel "x" initState [[("y", "int")]] (by decide)).2.2.1⟩

/-! ### Claim C6: per-phase, per-item decomposition of the error list -/

/-- One step of the phase-1 globals loop. -/
def dgStep (v : VarNode) (st : St) : St :=
  let (ok, g) := st.global.addBinding v.name v.type
  let st1 := { st with global := g }
  if ok then st1 else recordError st1 .VariableRedefined v.name

/-- One step of the phase-1 functions loop. -/
def dfStep (f : FunctionNode) (st : St) : St :=
  let (ok, g) := st.global.addBinding f.name "function"
  let st1 := { st with global := g }
  if ok then st1 else recordError st1 .FunctionRedefined f.name

theorem declare_globals_cons (v : VarNode) (rest : List VarNode) (st : St) :
    declare_globals (v :: rest) st = declare_globals rest (dgStep v st) := by
  simp only [declare_globals, dgStep]

theorem declare_functions_cons (f : FunctionNode) (rest : List FunctionNode) (st : St) :
    declare_functions (f :: rest) st = declare_functions rest (dfStep f st) := by
  simp only [declare_functions, dfStep]

theorem check_functions_cons (f : FunctionNode) (rest : List FunctionNode) (st : St) :
    check_functions (f :: rest) st = check_functions rest (check_function f st) := by
  simp only [check_functions]

theorem check_global_inits_cons (v : VarNode) (rest : List VarNode) (st : St) :
    check_global_inits (v :: rest) st
      = check_global_inits rest (check_opt v.value st) := by
  simp only [check_global_inits]

theorem dgStep_errors (v : VarNode) (st : St) :
    ∃ d, (dgStep v st).errors = st.errors ++ d := by
  by_cases hc : (st.global.addBinding v.name v.type).1
  · exact ⟨[], by simp [dgStep, hc]⟩
  · exact ⟨[.VariableRedefined], by simp [dgStep, hc, recordError]⟩

theorem dfStep_errors (f : FunctionNode) (st : St) :
    ∃ d, (dfStep f st).errors = st.errors ++ d := by
  by_cases hc : (st.global.addBinding f.name "function").1
  · exact ⟨[], by simp [dfStep, hc]⟩
  · exact ⟨[.FunctionRedefined], by simp [dfStep, hc, recordError]⟩

theorem declare_globals_take : ∀ (gs : List VarNode) (st : St),
    ∃ ds : List (List ScopeError), ds.length = gs.length ∧
      ∀ i : Nat, (declare_globals (gs.take i) st).errors
        = st.errors ++ (ds.take i).flatten
  | [], st => ⟨[], rfl, fun i => by simp [declare_globals]⟩
  | v :: rest, st => by
    obtain ⟨d0, hd0⟩ := dgStep_errors v st
    obtain ⟨ds', hlen, hds⟩ := declare_globals_take rest (dgStep v st)
    refine ⟨d0 :: ds', by simp [hlen], ?_⟩
    intro i
    cases i with
    | zero => simp [declare_globals]
    | succ j =>
      rw [List.take_succ_cons, declare_globals_cons, hds j, hd0]
      simp

theorem declare_functions_take : ∀ (fs : List FunctionNode) (st : St),
    ∃ ds : List (List ScopeError), ds.length = fs.length ∧
      ∀ i : Nat, (declare_functions (fs.take i) st).errors
        = st.errors ++ (ds.take i).flatten
  | [], st => ⟨[], rfl, fun i => by simp [declare_functions]⟩
  | f :: rest, st => by
    obtain ⟨d0, hd0⟩ := dfStep_errors f st
    obtain ⟨ds', hlen, hds⟩ := declare_functions_take rest (dfStep f st)
    refine ⟨d0 :: ds', by simp [hlen], ?_⟩
    intro i
    cases i with
    | zero => simp [declare_functions]
    | succ j =>
      rw [List.take_succ_cons, declare_functions_cons, hds j, hd0]
      simp

theorem check_functions_take : ∀ (fs : List FunctionNode) (st : St),
    ∃ ds : List (List ScopeError), ds.length = fs.length ∧
      ∀ i : Nat, (check_functions (fs.take i) st).errors
        = st.errors ++ (ds.take i).flatten
  | [], st => ⟨[], rfl, fun i => by simp [check_functions]⟩
  | f :: rest, st => by
    obtain ⟨d0, hd0⟩ := (emits_check_function f st).errors_extend
    obtain ⟨ds', hlen, hds⟩ := check_functions_take rest (check_function f st)
    refine ⟨d0 :: ds', by simp [hlen], ?_⟩
    intro i
    cases i with
    | zero => simp [check_functions]
    | succ j =>
      rw [List.take_succ_cons, check_functions_cons, hds j, hd0]
      simp

theorem check_global_inits_take : ∀ (gs : List VarNode) (st : St),
    ∃ ds : List (List ScopeError), ds.length = gs.length ∧
      ∀ i : Nat, (check_global_inits (gs.take i) st).errors
        = st.errors ++ (ds.take i).flatten
  | [], st => ⟨[], rfl, fun i => by simp [check_global_inits]⟩
  | v :: rest, st => by
    obtain ⟨d0, hd0⟩ := (emits_check_opt v.value st).errors_extend
    obtain ⟨ds', hlen, hds⟩ := check_global_inits_take rest (check_opt v.value st)
    refine ⟨d0 :: ds', by simp [hlen], ?_⟩
    intro i
    cases i with
    | zero => simp [check_global_inits]
    | succ j =>
      rw [List.take_succ_cons, check_global_inits_cons, hds j, hd0]
      simp

/-- C6: one `check` invocation returns the complete error sequence in
discovery order, never truncated at a fault: the final error list splits
exactly into phase-1 global-loop errors (one chunk per global, in
declaration order), then phase-1 function-loop errors (one chunk per
function), then phase-2 errors (one chunk per function body, in
declaration order), then phase-3 errors (one chunk per global
initializer); every prefix of each loop accounts for exactly the chunks
of the items processed so far, so no error is ever dropped. -/
theorem C6_errors_complete_and_ordered (p : ProgramNode) :
    ∃ dg df db di : List (List ScopeError),
      dg.length = p.globals.length ∧ df.length = p.functions.length ∧
      db.length = p.functions.length ∧ di.length = p.globals.length ∧
      (analyze p).errors = dg.flatten ++ df.flatten ++ db.flatten ++ di.flatten ∧
      (∀ i, (declare_globals (p.globals.take i) initState).errors
        = (dg.take i).flatten) ∧
      (∀ i, (declare_functions (p.functions.take i)
          (declare_globals p.globals initState)).errors
        = dg.flatten ++ (df.take i).flatten) ∧
      (∀ i, (check_functions (p.functions.take i)
          (declare_functions p.functions (declare_globals p.globals initState))).errors
        = dg.flatten ++ df.flatten ++ (db.take i).flatten) ∧
      (∀ i, (check_global_inits (p.globals.take i)
          (check_functions p.functions (declare_functions p.functions
            (declare_globals p.globals initState)))).errors
        = dg.flatten ++ df.flatten ++ db.flatten ++ (di.take i).flatten) := by
  obtain ⟨dg, hg1, hg2⟩ := declare_globals_take p.globals initState
  have hgi : ∀ i, (declare_globals (p.globals.take i) initState).errors
      = (dg.take i).flatten := by
    intro i
    simpa [initState] using hg2 i
  have hgfull : (declare_globals p.globals initState).errors = dg.flatten := by
    have h := hgi p.globals.length
    rwa [List.take_length, ← hg1, List.take_length] at h
  obtain ⟨df, hf1, hf2⟩ :=
    declare_functions_take p.functions (declare_globals p.globals initState)
  have hfi : ∀ i, (declare_functions (p.functions.take i)
      (declare_globals p.globals initState)).errors
      = dg.flatten ++ (df.take i).flatten := by
    intro i
    rw [hf2 i, hgfull]
  have hffull : (declare_functions p.functions
      (declare_globals p.globals initState)).errors = dg.flatten ++ df.flatten := by
    have h := hfi p.functions.length
    rwa [List.take_length, ← hf1, List.take_length] at h
  obtain ⟨db, hb1, hb2⟩ := check_functions_take p.functions
    (declare_functions p.functions (declare_globals p.globals initState))
  have hbi : ∀ i, (check_functions (p.functions.take i)
      (declare_functions p.functions (declare_globals p.globals initState))).errors
      = dg.flatten ++ df.flatten ++ (db.take i).flatten := by
    intro i
    rw [hb2 i, hffull]
  have hbfull : (check_functions p.functions
      (declare_functions p.functions (declare_globals p.globals initState))).errors
      = dg.flatten ++ df.flatten ++ db.flatten := by
    have h := hbi p.functions.length
    rwa [List.take_length, ← hb1, List.take_length] at h
  obtain ⟨di, hi1, hi2⟩ := check_global_inits_take p.globals
    (check_functions p.functions (declare_functions p.functions
      (declare_globals p.globals initState)))
  have hii : ∀ i, (check_global_inits (p.globals.take i)
      (check_functions p.functions (declare_functions p.functions
        (declare_globals p.globals initState)))).errors
      = dg.flatten ++ df.flatten ++ db.flatten ++ (di.take i).flatten := by
    intro i
    rw [hi2 i, hbfull]
  have hifull : (analyze p).errors
      = dg.flatten ++ df.flatten ++ db.flatten ++ di.flatten := by
    have h := hii p.globals.length
    rwa [List.take_length, ← hi1, List.take_length] at h
  exact ⟨dg, df, db, di, hg1, hf1, hb1, hi1, hifull, hgi, hfi, hbi, hii⟩

/-! ### Claim C9: the work (and error count) is bounded by AST size -/

mutual

/-- Number of AST nodes in a subtree. -/
def AST.nodeCount : AST → Nat
  | .block stmts => 1 + nodeCountList stmts
  | .varDecl _ _ v => 1 + nodeCountOpt v
  | .call _ args => 1 + nodeCountList args
  | .nameRef _ => 1
  | .literal _ _ => 1
  | .binaryOp _ l r => 1 + nodeCountOpt l + nodeCountOpt r
  | .assignment _ v => 1 + nodeCountOpt v
  | .ret v => 1 + nodeCountOpt v
  | .ifStmt c tb eb => 1 + nodeCountOpt c + nodeCountOpt tb + nodeCountOpt eb
  | .whileStmt c b => 1 + nodeCountOpt c + nodeCountOpt b
  | .forStmt i c inc b =>
    1 + nodeCountOpt i + nodeCountOpt c + nodeCountOpt inc + nodeCountOpt b

def nodeCountList : List AST → Nat
  | [] => 0
  | n :: rest => AST.nodeCount n + nodeCountList rest

def nodeCountOpt : Option AST → Nat
  | none => 0
  | some n => AST.nodeCount n

end

theorem recordError_errors_length (st : St) (e : ScopeError) (n : String) :
    (recordError st e n).errors.length = st.errors.length + 1 := by
  simp [recordError]

mutual

theorem errs_bound_node : ∀ (n : AST) (st : St),
    (check_node n st).errors.length ≤ st.errors.length + AST.nodeCount n
  | .block stmts, st => by
    simp only [check_node, leaveScope, AST.nodeCount]
    have h := errs_bound_list stmts (enterScope st)
    rw [show (enterScope st).errors = st.errors from rfl] at h
    omega
  | .varDecl ty n v, st => by
    simp only [check_node, AST.nodeCount]
    have h1 : (if inScopeCurrent st n then recordError st .VariableRedefined n
        else (addCurrent st n ty).2).errors.length ≤ st.errors.length + 1 := by
      by_cases hc : inScopeCurrent st n <;>
        simp [hc, recordError_errors_length, addCurrent_errors]
    have h2 := errs_bound_opt v (if inScopeCurrent st n
      then recordError st .VariableRedefined n else (addCurrent st n ty).2)
    omega
  | .call n args, st => by
    simp only [check_node, AST.nodeCount]
    have h1 : (if globalFind st n ≠ "function"
        then recordError st .UndefinedFunction n else st).errors.length
        ≤ st.errors.length + 1 := by
      by_cases hc : globalFind st n = "function" <;>
        simp [hc, recordError_errors_length]
    have h2 := errs_bound_list args (if globalFind st n ≠ "function"
      then recordError st .UndefinedFunction n else st)
    omega
  | .nameRef n, st => by
    simp only [check_node, AST.nodeCount]
    by_cases hc : currentFind st n = "" <;>
      simp [hc, recordError_errors_length]
  | .assignment n v, st => by
    simp only [check_node, AST.nodeCount]
    have h2 := errs_bound_opt v st
    by_cases hc : currentFind (check_opt v st) n = "" <;>
      simp only [hc, if_true, if_false, recordError_errors_length] <;>
      omega
  | .ret v, st => by
    simp only [check_node, AST.nodeCount]
    have h := errs_bound_opt v st
    omega
  | .ifStmt c tb eb, st => by
    simp only [check_node, AST.nodeCount]
    have h1 := errs_bound_opt c st
    have h2 := errs_bound_opt tb (check_opt c st)
    have h3 := errs_bound_opt eb (check_opt tb (check_opt c st))
    omega
  | .whileStmt c b, st => by
    simp only [check_node, AST.nodeCount]
    have h1 := errs_bound_opt c st
    have h2 := errs_bound_opt b (check_opt c st)
    omega
  | .forStmt i c inc b, st => by
    simp only [check_node, leaveScope, AST.nodeCount]
    have h1 := errs_bound_opt i (enterScope st)
    have h2 := errs_bound_opt c (check_opt i (enterScope st))
    have h3 := errs_bound_opt inc (check_opt c (check_opt i (enterScope st)))
    have h4 := errs_bound_opt b (check_opt inc (check_opt c (check_opt i (enterScope st))))
    rw [show (enterScope st).errors = st.errors from rfl] at h1
    omega
  | .binaryOp o l r, st => by
    simp only [check_node, AST.nodeCount]
    have h1 := errs_bound_opt l st
    have h2 := errs_bound_opt r (check_opt l st)
    omega
  | .literal ty v, st => by
    simp only [check_node, AST.nodeCount]
    omega

theorem errs_bound_list : ∀ (ns : List AST) (st : St),
    (check_list ns st).errors.length ≤ st.errors.length + nodeCountList ns
  | [], st => by simp only [check_list, nodeCountList]; omega
  | n :: rest, st => by
    simp only [check_list, nodeCountList]
    have h1 := errs_bound_node n st
    have h2 := errs_bound_list rest (check_node n st)
    omega

theorem errs_bound_opt : ∀ (o : Option AST) (st : St),
    (check_opt o st).errors.length ≤ st.errors.length + nodeCountOpt o
  | none, st => by simp only [check_opt, nodeCountOpt]; omega
  | some n, st => by
    simp only [check_opt, nodeCountOpt]
    exact errs_bound_node n st

end

theorem dgStep_errors_length (v : VarNode) (st : St) :
    (dgStep v st).errors.length ≤ st.errors.length + 1 := by
  by_cases hc : (st.global.addBinding v.name v.type).1 <;>
    simp [dgStep, hc, recordError]

theorem dfStep_errors_length (f : FunctionNode) (st : St) :
    (dfStep f st).errors.length ≤ st.errors.length + 1 := by
  by_cases hc : (st.global.addBinding f.name "function").1 <;>
    simp [dfStep, hc, recordError]

theorem declare_globals_bound : ∀ (gs : List VarNode) (st : St),
    (declare_globals gs st).errors.length ≤ st.errors.length + gs.length
  | [], st => by simp [declare_globals]
  | v :: rest, st => by
    rw [declare_globals_cons]
    have h1 := dgStep_errors_length v st
    have h2 := declare_globals_bound rest (dgStep v st)
    simp only [List.length_cons]
    omega

theorem declare_functions_bound : ∀ (fs : List FunctionNode) (st : St),
    (declare_functions fs st).errors.length ≤ st.errors.length + fs.length
  | [], st => by simp [declare_functions]
  | f :: rest, st => by
    rw [declare_functions_cons]
    have h1 := dfStep_errors_length f st
    have h2 := declare_functions_bound rest (dfStep f st)
    simp only [List.length_cons]
    omega

theorem check_params_bound : ∀ (ps : List VarNode) (st : St),
    (check_params ps st).errors.length ≤ st.errors.length + ps.length
  | [], st => by simp [check_params]
  | p :: rest, st => by
    simp only [check_params]
    have h1 : (if (addCurrent st p.name p.type).1 then (addCurrent st p.name p.type).2
        else recordError (addCurrent st p.name p.type).2
          .VariableRedefined p.name).errors.length ≤ st.errors.length + 1 := by
      by_cases hc : (addCurrent st p.name p.type).1 <;>
        simp [hc, recordError, addCurrent_errors]
    have h2 := check_params_bound rest (if (addCurrent st p.name p.type).1
      then (addCurrent st p.name p.type).2
      else recordError (addCurrent st p.name p.type).2 .VariableRedefined p.name)
    simp only [List.length_cons]
    omega

/-- Size of one function for the analyzer's work bound: its parameters
plus the nodes of its body. -/
def FunctionNode.size (f : FunctionNode) : Nat :=
  f.params.length + nodeCountOpt f.body

/-- Size of one global's initializer. -/
def VarNode.initSize (v : VarNode) : Nat :=
  nodeCountOpt v.value

/-- Whole-program size: one unit per global declaration and per function
declaration (phase 1), plus every function's parameters and body nodes
(phase 2), plus every global initializer's nodes (phase 3). -/
def ProgramNode.size (p : ProgramNode) : Nat :=
  p.globals.length + p.functions.length
    + (p.functions.map FunctionNode.size).sum
    + (p.globals.map VarNode.initSize).sum

theorem check_function_bound (f : FunctionNode) (st : St) :
    (check_function f st).errors.length ≤ st.errors.length + FunctionNode.size f := by
  unfold check_function FunctionNode.size
  rw [show (leaveScope (check_opt f.body (check_params f.params (enterScope st)))).errors
    = (check_opt f.body (check_params f.params (enterScope st))).errors from rfl]
  have h1 := check_params_bound f.params (enterScope st)
  have h2 := errs_bound_opt f.body (check_params f.params (enterScope st))
  rw [show (enterScope st).errors = st.errors from rfl] at h1
  omega

theorem check_functions_bound : ∀ (fs : List FunctionNode) (st : St),
    (check_functions fs st).errors.length
      ≤ st.errors.length + (fs.map FunctionNode.size).sum
  | [], st => by simp [check_functions]
  | f :: rest, st => by
    rw [check_functions_cons]
    have h1 := check_function_bound f st
    have h2 := check_functions_bound rest (check_function f st)
    simp only [List.map_cons, List.sum_cons]
    omega

theorem check_global_inits_bound : ∀ (gs : List VarNode) (st : St),
    (check_global_inits gs st).errors.length
      ≤ st.errors.length + (gs.map VarNode.initSize).sum
  | [], st => by simp [check_global_inits]
  | v :: rest, st => by
    rw [check_global_inits_cons]
    have h1 := errs_bound_opt v.value st
    have h2 := check_global_inits_bound rest (check_opt v.value st)
    simp only [List.map_cons, List.sum_cons, VarNode.initSize]
    omega

/-- C9: the analysis always terminates and its work is bounded by the
size of the AST — the traversal functions of this embedding are total
(structurally/well-foundedly recursive on the finite tree), and the
number of errors one `check` invocation can record is bounded by the
program's node count: at most one error per global declaration, per
function declaration, per parameter, and per body/initializer node. -/
theorem C9_terminates_work_bounded (p : ProgramNode) :
    errorCount p ≤ ProgramNode.size p := by
  unfold errorCount analyze ProgramNode.size
  have h0 : initState.errors.length = 0 := rfl
  have h1 := declare_globals_bound p.globals initState
  have h2 := declare_functions_bound p.functions (declare_globals p.globals initState)
  have h3 := check_functions_bound p.functions
    (declare_functions p.functions (declare_globals p.globals initState))
  have h4 := check_global_inits_bound p.globals
    (check_functions p.functions (declare_functions p.functions
      (declare_globals p.globals initState)))
  omega
